import Mathlib

/-!
Shallow embedding of src/XDownloadervideos.py, a command-line tool that
downloads the videos of an X/Twitter profile and packages them into a
ZIP archive, together with theorems settling the specification claims
about it.

External effects (the yt-dlp adapter call, the filesystem, sys.exit)
are modelled explicitly: the contents of the temporary Working Area
after retrieval, the availability of yt-dlp, whether the retrieval or
the archiving raises, and whether the final shutil.rmtree fails are
oracle inputs in a World record; the observable behaviour of the run
(effects performed, archive entries written, outcome) is computed from
them by following the Python control flow line by line.
-/

namespace XD

/-! ## Strings: Python-faithful primitives -/

/-- Model of Python `s.endswith(t)`: `t` is a suffix of `s`. -/
def strEndsWith (s t : String) : Bool := decide (t.data <:+ s.data)

/-- Model of Python `str.lower` on the ASCII range, which is all the
extension allow-list test needs (`Char.toLower` lowercases ASCII). -/
def strLower (s : String) : String := String.mk (s.data.map Char.toLower)

/-- Characters stripped by Python `str.strip()` (ASCII part; the
Unicode-only space code points never occur in the claims). -/
def isPySpace (c : Char) : Bool :=
  c == ' ' || c == '\t' || c == '\n' || c == '\r' || c == '\x0b' || c == '\x0c'

/-- Model of Python `s.strip()`: drop leading and trailing whitespace. -/
def pyStripWs (s : String) : String :=
  String.mk (((s.data.dropWhile isPySpace).reverse.dropWhile isPySpace).reverse)

/-- Model of Python `s.lstrip("@")`: drop every leading `'@'`. -/
def pyLstripAt (s : String) : String :=
  String.mk (s.data.dropWhile (fun c => c == '@'))

/-- Python truthiness of an optional string (`None` and `""` are falsy). -/
def strTruthy : Option String → Bool
  | none => false
  | some s => s != ""

/-- Python truthiness of an optional int (`None` and `0` are falsy). -/
def intTruthy : Option Int → Bool
  | none => false
  | some n => n != 0

/-- Model of Python `a or b` on an optional string. -/
def pyOrStr (o : Option String) (dflt : String) : String :=
  match o with
  | none => dflt
  | some s => if s = "" then dflt else s

/-- Lexicographic comparison of char lists by code point, exactly the
comparison Python uses on strings. -/
def lexLe : List Char → List Char → Bool
  | [], _ => true
  | _ :: _, [] => false
  | a :: as, b :: bs =>
    if a.toNat < b.toNat then true
    else if b.toNat < a.toNat then false
    else lexLe as bs

/-- Lexicographic order on strings, as Python compares them. -/
def strLe (s t : String) : Bool := lexLe s.data t.data

/-! ## Username handling (main, lines 227-230) -/

/-- Line 227, `username = args.username.lstrip("@").strip()` — note the
order: all leading `'@'` are dropped first, then surrounding whitespace. -/
def normalizeUsername (raw : String) : String := pyStripWs (pyLstripAt raw)

/-- One character of the class `[A-Za-z0-9_]`. -/
def isHandleChar (c : Char) : Bool :=
  (decide ('A' ≤ c) && decide (c ≤ 'Z')) ||
  (decide ('a' ≤ c) && decide (c ≤ 'z')) ||
  (decide ('0' ≤ c) && decide (c ≤ '9')) ||
  c == '_'

/-- Line 228, `re.match(r'^[A-Za-z0-9_]{1,50}$', username)` on a string
with no trailing newline (normalization strips any, so none remains). -/
def validUsername (u : String) : Bool :=
  decide (1 ≤ u.data.length) && decide (u.data.length ≤ 50) &&
  u.data.all isHandleChar

/-! ## Output path resolution (main, lines 232-235) -/

/-- Lines 233-235: `output_zip = args.output or f"{username}_videos.zip"`
followed by `if not output_zip.endswith(".zip"): output_zip += ".zip"`. -/
def resolveOutput (username : String) (output : Option String) : String :=
  let oz := pyOrStr output (username ++ "_videos.zip")
  if strEndsWith oz ".zip" then oz else oz ++ ".zip"

/-- Modelled from the spec: the output-path rule as claim C9 words it
(default `<username>_videos.zip`; for a given output argument, append
`.zip` iff the argument does not already end in `.zip`), kept separate
so it can be compared with `resolveOutput` above. -/
def specResolveOutput (username : String) (output : Option String) : String :=
  match output with
  | none => username ++ "_videos.zip"
  | some s => if strEndsWith s ".zip" then s else s ++ ".zip"

/-! ## Working Area scan and archive assembly (download_videos, 135-164) -/

/-- One entry of `os.listdir(temp_dir)` with its `os.path.isfile` status. -/
structure DirEntry where
  name : String
  isFile : Bool
deriving DecidableEq

/-- Line 138, `f.lower().endswith((".mp4", ".webm", ".mkv", ".mov", ".avi"))`. -/
def isVideoFile (f : String) : Bool :=
  [".mp4", ".webm", ".mkv", ".mov", ".avi"].any
    (fun ext => strEndsWith (strLower f) ext)

/-- Lines 135-139, `downloaded_files`: regular files in the Working Area
listing whose lowercased name ends in an allow-listed extension. -/
def qualifyingFiles (listing : List DirEntry) : List String :=
  (listing.filter (fun e => e.isFile && isVideoFile e.name)).map (fun e => e.name)

/-- Line 158, `sorted(downloaded_files)`: stable sort under the
code-point lexicographic order (for strings any sort agrees, since
comparison-equal strings are equal). -/
def sortFiles (fs : List String) : List String :=
  List.insertionSort (fun a b => strLe a b = true) fs

/-- Line 161, `new_name = f"{username}_{filename}"`. -/
def targetName (username filename : String) : String :=
  username ++ "_" ++ filename

/-- Lines 157-162: the arcnames written into the ZIP, in writing order. -/
def archiveNames (username : String) (files : List String) : List String :=
  (sortFiles files).map (targetName username)

/-! ## The yt-dlp option dictionary (download_videos, lines 108-126) -/

/-- Record of the `ydl_opts` dictionary as built by `download_videos`;
absent dictionary keys are modelled as `none`. -/
structure YdlOpts where
  format : String
  outtmpl : String
  ignoreerrors : Bool
  quiet : Bool
  no_warnings : Bool
  writeinfojson : Bool
  writethumbnail : Bool
  merge_output_format : String
  playlist_items : Option String
  cookiefile : Option String
deriving DecidableEq

/-- Lines 108-126: build `ydl_opts` from the limit, the cookies
argument, the cookies-file existence and the quality selector; also
report whether the missing-cookies warning was printed. -/
def buildYdlOpts (limit : Option Int) (cookies : Option String)
    (cookiesExists : Bool) (quality : String) : YdlOpts × Bool :=
  let base : YdlOpts :=
    { format := if quality = "best" then
        "bestvideo[ext=mp4]+bestaudio[ext=m4a]/best[ext=mp4]/best" else quality
      outtmpl := "%(id)s.%(ext)s"
      ignoreerrors := true
      quiet := false
      no_warnings := false
      writeinfojson := false
      writethumbnail := false
      merge_output_format := "mp4"
      playlist_items := none
      cookiefile := none }
  let withLimit : YdlOpts :=
    match limit with
    | some n => if n ≠ 0 then { base with playlist_items := some ("1-" ++ toString n) } else base
    | none => base
  if strTruthy cookies then
    if cookiesExists then ({ withLimit with cookiefile := cookies }, false)
    else (withLimit, true)
  else (withLimit, false)

/-! ## The run model (download_videos and main) -/

/-- Filesystem and network side effects of a run, in order of occurrence. -/
inductive Eff where
  | createWorkDir
  | adapterDownload
  | openArchive
  | removeWorkDir
deriving DecidableEq

/-- Ways `download_videos` ends: `sys.exit` before the Working Area is
created, a normal `return`, or a propagating exception. -/
inductive DVOutcome where
  | exited (code : Nat)
  | ret (success : Bool)
  | raised
deriving DecidableEq

/-- Oracle inputs of one run: everything decided outside this program. -/
structure World where
  /-- result of `check_yt_dlp()` (the import succeeds). -/
  ytDlpInstalled : Bool
  /-- result of `os.listdir(temp_dir)` with `isfile` status, after the adapter call. -/
  listing : List DirEntry
  /-- the `--cookies` argument. -/
  cookiesArg : Option String
  /-- result of `os.path.exists(cookies_file)`. -/
  cookiesFileExists : Bool
  /-- the `--limit` argument. -/
  limitArg : Option Int
  /-- the `--quality` argument. -/
  quality : String
  /-- whether `ydl.download` raises. -/
  retrievalRaises : Bool
  /-- whether writing the ZIP raises. -/
  archiveRaises : Bool
  /-- whether `shutil.rmtree` fails (swallowed by `ignore_errors=True`). -/
  rmtreeFails : Bool

/-- Observable behaviour of one `download_videos` call. -/
structure DVRun where
  outcome : DVOutcome
  effects : List Eff
  /-- arcnames written to the ZIP, in order (empty if never opened). -/
  entries : List String
  /-- the options passed to `yt_dlp.YoutubeDL` (`none` if never called). -/
  optsUsed : Option YdlOpts
  /-- whether the missing-cookies warning was printed. -/
  warnedCookies : Bool
  /-- whether the Working Area still exists after the call. -/
  tempDirExists : Bool
deriving DecidableEq

/-- Model of `download_videos(username, output_zip, ...)` (lines 82-174):
exit if yt-dlp is missing; create the Working Area; build options
(warning on a missing cookies file); run the adapter; scan for
qualifying files; return `False` if none, else write the ZIP and return
`True`; on every path out of the `try` block the `finally` block runs
`shutil.rmtree(temp_dir, ignore_errors=True)`. -/
def downloadVideos (username outputZip : String) (w : World) : DVRun :=
  if ¬ w.ytDlpInstalled then
    { outcome := .exited 1, effects := [], entries := [],
      optsUsed := none, warnedCookies := false, tempDirExists := false }
  else
    let ow := buildYdlOpts w.limitArg w.cookiesArg w.cookiesFileExists w.quality
    if w.retrievalRaises then
      { outcome := .raised,
        effects := [.createWorkDir, .adapterDownload, .removeWorkDir],
        entries := [], optsUsed := some ow.1, warnedCookies := ow.2,
        tempDirExists := w.rmtreeFails }
    else
      let files := qualifyingFiles w.listing
      if files.isEmpty then
        { outcome := .ret false,
          effects := [.createWorkDir, .adapterDownload, .removeWorkDir],
          entries := [], optsUsed := some ow.1, warnedCookies := ow.2,
          tempDirExists := w.rmtreeFails }
      else if w.archiveRaises then
        { outcome := .raised,
          effects := [.createWorkDir, .adapterDownload, .openArchive, .removeWorkDir],
          entries := [], optsUsed := some ow.1, warnedCookies := ow.2,
          tempDirExists := w.rmtreeFails }
      else
        { outcome := .ret true,
          effects := [.createWorkDir, .adapterDownload, .openArchive, .removeWorkDir],
          entries := archiveNames username files,
          optsUsed := some ow.1, warnedCookies := ow.2,
          tempDirExists := w.rmtreeFails }

/-- Ways `main` ends: `sys.exit(code)` or a propagating exception. -/
inductive MainOutcome where
  | exit (code : Nat)
  | raised
deriving DecidableEq

/-- Observable behaviour of one `main()` call. -/
structure MainRun where
  outcome : MainOutcome
  effects : List Eff
  entries : List String
deriving DecidableEq

/-- Model of `main()` (lines 177-245): normalize and validate the
username (exit 1 on failure, before any side effect), resolve the
output path, run `download_videos`, and `sys.exit(0 if success else 1)`. -/
def mainRun (rawUsername : String) (output : Option String) (w : World) : MainRun :=
  let username := normalizeUsername rawUsername
  if validUsername username then
    let dv := downloadVideos username (resolveOutput username output) w
    match dv.outcome with
    | .exited c => { outcome := .exit c, effects := dv.effects, entries := dv.entries }
    | .raised => { outcome := .raised, effects := dv.effects, entries := dv.entries }
    | .ret b => { outcome := .exit (if b then 0 else 1),
                  effects := dv.effects, entries := dv.entries }
  else
    { outcome := .exit 1, effects := [], entries := [] }

/-! ## Concrete run fixtures used by the witnesses -/

/-- Fixture: a Working Area holding the three files of the spec example. -/
def wDemo : World :=
  { ytDlpInstalled := true
    listing := [⟨"b.mp4", true⟩, ⟨"a.webm", true⟩, ⟨"c.mkv", true⟩]
    cookiesArg := none
    cookiesFileExists := false
    limitArg := none
    quality := "best"
    retrievalRaises := false
    archiveRaises := false
    rmtreeFails := false }

/-- Fixture: a run whose Working Area ends up empty. -/
def wEmpty : World := { wDemo with listing := [] }

/-- Fixture: a run given a cookies path that does not exist on disk. -/
def wCookies : World := { wDemo with cookiesArg := some "cookies.txt" }

/-! ## Helper lemmas -/

theorem lexLe_total : ∀ a b : List Char, lexLe a b = true ∨ lexLe b a = true := by
  intro a
  induction a with
  | nil => intro b; left; rfl
  | cons x xs ih =>
    intro b
    cases b with
    | nil => right; rfl
    | cons y ys =>
      rcases Nat.lt_trichotomy x.toNat y.toNat with h | h | h
      · left; simp [lexLe, h]
      · rcases ih ys with h' | h'
        · left; simp [lexLe, h, Nat.lt_irrefl, h']
        · right; simp [lexLe, h.symm, Nat.lt_irrefl, h']
      · right; simp [lexLe, h]

theorem lexLe_trans : ∀ a b c : List Char,
    lexLe a b = true → lexLe b c = true → lexLe a c = true := by
  intro a
  induction a with
  | nil => intro b c _ _; rfl
  | cons x xs ih =>
    intro b c hab hbc
    cases b with
    | nil => simp [lexLe] at hab
    | cons y ys =>
      cases c with
      | nil => simp [lexLe] at hbc
      | cons z zs =>
        simp only [lexLe] at hab hbc ⊢
        rcases Nat.lt_trichotomy x.toNat y.toNat with hxy | hxy | hxy
        · rcases Nat.lt_trichotomy y.toNat z.toNat with hyz | hyz | hyz
          · simp [Nat.lt_trans hxy hyz]
          · simp [Nat.lt_of_lt_of_le hxy (Nat.le_of_eq hyz)]
          · simp [Nat.lt_asymm hyz, hyz] at hbc
        · rcases Nat.lt_trichotomy y.toNat z.toNat with hyz | hyz | hyz
          · simp [Nat.lt_of_le_of_lt (Nat.le_of_eq hxy) hyz]
          · have hxz : x.toNat = z.toNat := hxy.trans hyz
            simp [hxy, Nat.lt_irrefl] at hab
            simp [hyz, Nat.lt_irrefl] at hbc
            simp [hxz, Nat.lt_irrefl]
            exact ih ys zs hab hbc
          · simp [Nat.lt_asymm hyz, hyz] at hbc
        · simp [Nat.lt_asymm hxy, hxy] at hab

theorem strData_append (s t : String) : (s ++ t).data = s.data ++ t.data := by
  cases s; cases t; rfl

theorem strData_inj {s t : String} (h : s.data = t.data) : s = t :=
  String.ext h

theorem dropWhile_all_false {α : Type} {p : α → Bool} :
    ∀ l : List α, (∀ c ∈ l, p c = false) → l.dropWhile p = l := by
  intro l h
  cases l with
  | nil => rfl
  | cons a t => simp [List.dropWhile_cons, h a (by simp)]

theorem isPySpace_of_handle {c : Char} (h : isHandleChar c = true) :
    isPySpace c = false := by
  cases hb : isPySpace c with
  | false => rfl
  | true =>
    exfalso
    simp only [isPySpace, Bool.or_eq_true, beq_iff_eq, or_assoc] at hb
    rcases hb with h' | h' | h' | h' | h' | h' <;> subst h' <;>
      exact absurd h (by decide)

theorem at_of_handle {c : Char} (h : isHandleChar c = true) :
    (c == '@') = false := by
  cases hb : (c == '@') with
  | false => rfl
  | true =>
    rw [beq_iff_eq] at hb
    subst hb
    exact absurd h (by decide)

theorem append_cons_sep_inj {α : Type} (sep : α) :
    ∀ l1 l2 m1 m2 : List α, sep ∉ l1 → sep ∉ l2 →
      l1 ++ sep :: m1 = l2 ++ sep :: m2 → l1 = l2 ∧ m1 = m2 := by
  intro l1
  induction l1 with
  | nil =>
    intro l2 m1 m2 _ h2 heq
    cases l2 with
    | nil => simpa using heq
    | cons b t =>
      exfalso
      simp only [List.nil_append, List.cons_append, List.cons.injEq] at heq
      exact h2 (heq.1 ▸ List.mem_cons_self b t)
  | cons a t ih =>
    intro l2 m1 m2 h1 h2 heq
    cases l2 with
    | nil =>
      exfalso
      simp only [List.nil_append, List.cons_append, List.cons.injEq] at heq
      exact h1 (heq.1 ▸ List.mem_cons_self a t)
    | cons b t2 =>
      simp only [List.cons_append, List.cons.injEq] at heq
      obtain ⟨rfl, htail⟩ := heq
      have h1' : sep ∉ t := fun hm => h1 (List.mem_cons_of_mem _ hm)
      have h2' : sep ∉ t2 := fun hm => h2 (List.mem_cons_of_mem _ hm)
      obtain ⟨hl, hm⟩ := ih t2 m1 m2 h1' h2' htail
      exact ⟨by rw [hl], hm⟩

theorem targetName_data (u f : String) :
    (targetName u f).data = u.data ++ '_' :: f.data := by
  simp [targetName, strData_append]

theorem targetName_inj (u : String) {f1 f2 : String}
    (h : targetName u f1 = targetName u f2) : f1 = f2 := by
  have hd := congrArg String.data h
  rw [targetName_data, targetName_data] at hd
  have h2 := List.append_cancel_left hd
  injection h2 with _ h3
  exact strData_inj h3

/-! ## Claim theorems -/

/-- C3: for every username argument whose normalized form does not match
the validation pattern, the run terminates with exit code 1 before
performing any filesystem or network side effect: no working directory
is created, no adapter call is made, no archive entry is written. -/
theorem C3_invalid_username_no_effects (raw : String) (output : Option String)
    (w : World) (hv : validUsername (normalizeUsername raw) = false) :
    (mainRun raw output w).outcome = .exit 1 ∧
    (mainRun raw output w).effects = [] ∧
    (mainRun raw output w).entries = [] := by
  simp [mainRun, hv]

/-- Witness for C3 at the concrete argument "bad name!". -/
theorem C3_invalid_username_no_effects_witness :
    validUsername (normalizeUsername "bad name!") = false ∧
    ((mainRun "bad name!" none wDemo).outcome = .exit 1 ∧
     (mainRun "bad name!" none wDemo).effects = [] ∧
     (mainRun "bad name!" none wDemo).entries = []) :=
  ⟨by decide, C3_invalid_username_no_effects "bad name!" none wDemo (by decide)⟩

/-- C2: in every run that reaches Archive Assembly with zero qualifying
files, the archive is never opened for writing, no entry is written, no
exception is raised, and the process exits with code 1. -/
theorem C2_empty_no_archive (raw : String) (output : Option String) (w : World)
    (hv : validUsername (normalizeUsername raw) = true)
    (hy : w.ytDlpInstalled = true) (hr : w.retrievalRaises = false)
    (he : qualifyingFiles w.listing = []) :
    (mainRun raw output w).outcome = .exit 1 ∧
    Eff.openArchive ∉ (mainRun raw output w).effects ∧
    (mainRun raw output w).outcome ≠ .raised ∧
    (mainRun raw output w).entries = [] := by
  simp [mainRun, hv, downloadVideos, hy, hr, he]

/-- Witness for C2 on a run with an empty Working Area. -/
theorem C2_empty_no_archive_witness :
    (validUsername (normalizeUsername "nasa") = true ∧
     wEmpty.ytDlpInstalled = true ∧ wEmpty.retrievalRaises = false ∧
     qualifyingFiles wEmpty.listing = []) ∧
    ((mainRun "nasa" none wEmpty).outcome = .exit 1 ∧
     Eff.openArchive ∉ (mainRun "nasa" none wEmpty).effects ∧
     (mainRun "nasa" none wEmpty).outcome ≠ .raised ∧
     (mainRun "nasa" none wEmpty).entries = []) :=
  ⟨⟨by decide, by decide, by decide, by decide⟩,
   C2_empty_no_archive "nasa" none wEmpty (by decide) (by decide) (by decide)
     (by decide)⟩

/-- C4 counterexample: the claim fails as stated, because identifiers may
themselves contain underscores; the two distinct valid identifiers "a"
and "a_b" produce the same target name with suitable filenames. -/
theorem C4_collision_counterexample :
    validUsername "a" = true ∧ validUsername "a_b" = true ∧ "a" ≠ "a_b" ∧
    targetName "a" "b_c.mp4" = targetName "a_b" "c.mp4" := by decide

/-- C4 amended: for identifiers that match the validation pattern and
contain no underscore, distinct identifiers never produce the same
target name, whatever the filenames. -/
theorem C4_no_collision_underscore_free (u1 u2 f1 f2 : String)
    (hv1 : validUsername u1 = true) (hv2 : validUsername u2 = true)
    (h1 : '_' ∉ u1.data) (h2 : '_' ∉ u2.data) (hne : u1 ≠ u2) :
    targetName u1 f1 ≠ targetName u2 f2 := by
  intro heq
  have hd := congrArg String.data heq
  rw [targetName_data, targetName_data] at hd
  obtain ⟨hu, -⟩ := append_cons_sep_inj '_' u1.data u2.data f1.data f2.data h1 h2 hd
  exact hne (strData_inj hu)

/-- Witness for the amended C4 at the identifiers "nasa" and "esa". -/
theorem C4_no_collision_underscore_free_witness :
    (validUsername "nasa" = true ∧ validUsername "esa" = true ∧
     '_' ∉ "nasa".data ∧ '_' ∉ "esa".data ∧ "nasa" ≠ "esa") ∧
    targetName "nasa" "x.mp4" ≠ targetName "esa" "y.mp4" :=
  ⟨⟨by decide, by decide, by decide, by decide, by decide⟩,
   C4_no_collision_underscore_free "nasa" "esa" "x.mp4" "y.mp4"
     (by decide) (by decide) (by decide) (by decide) (by decide)⟩

/-- C5 counterexample: the claim fails as stated, because the code strips
the leading "@" before stripping whitespace; the input " @nasa" (an
"@"-prefixed valid handle surrounded by whitespace) normalizes to
"@nasa", which fails validation, while "nasa" itself is valid. -/
theorem C5_normalize_counterexample :
    normalizeUsername " @nasa" = "@nasa" ∧
    validUsername (normalizeUsername " @nasa") = false ∧
    validUsername "nasa" = true := by decide

/-- C5 amended: normalization drops all leading "@" characters first and
surrounding whitespace second; hence an "@"-prefixed valid handle is
accepted when the "@" is the very first character, while whitespace
before the "@" leaves the "@" in place and the input is rejected. -/
theorem C5_normalize_amended (u : String) (hv : validUsername u = true) :
    normalizeUsername ("@" ++ u) = u ∧
    validUsername (normalizeUsername ("@" ++ u)) = true ∧
    normalizeUsername (" @" ++ u) = "@" ++ u ∧
    validUsername (normalizeUsername (" @" ++ u)) = false := by
  have hv' := hv
  simp only [validUsername, Bool.and_eq_true, decide_eq_true_eq] at hv'
  obtain ⟨⟨hlen, -⟩, hall⟩ := hv'
  rw [List.all_eq_true] at hall
  have hmem : ∀ c ∈ u.data, isHandleChar c = true := fun c hc => by
    simpa using hall c hc
  have hnospace : ∀ c ∈ u.data, isPySpace c = false :=
    fun c hc => isPySpace_of_handle (hmem c hc)
  have hdata : ("@" ++ u).data = '@' :: u.data := by rw [strData_append]; rfl
  have hdata2 : (" @" ++ u).data = ' ' :: '@' :: u.data := by rw [strData_append]; rfl
  have hdropU : u.data.dropWhile (fun c => c == '@') = u.data :=
    dropWhile_all_false _ (fun c hc => at_of_handle (hmem c hc))
  have key1 : pyLstripAt ("@" ++ u) = u := by
    unfold pyLstripAt
    rw [hdata, List.dropWhile_cons]
    simp only [beq_self_eq_true, if_true, hdropU]
  have key2 : pyStripWs u = u := by
    unfold pyStripWs
    rw [dropWhile_all_false _ hnospace,
      dropWhile_all_false _ (fun c hc => hnospace c (List.mem_reverse.mp hc)),
      List.reverse_reverse]
  have conj1 : normalizeUsername ("@" ++ u) = u := by
    rw [normalizeUsername, key1, key2]
  have hns2 : ∀ c ∈ '@' :: u.data, isPySpace c = false := by
    intro c hc
    rcases List.mem_cons.mp hc with rfl | hc
    · decide
    · exact hnospace c hc
  have key3 : pyLstripAt (" @" ++ u) = " @" ++ u := rfl
  have key4 : pyStripWs (" @" ++ u) = "@" ++ u := by
    have h1 : (' ' :: '@' :: u.data).dropWhile isPySpace = '@' :: u.data := by
      rw [List.dropWhile_cons]
      simp only [show isPySpace ' ' = true from rfl, if_true]
      exact dropWhile_all_false _ hns2
    have h2 : ('@' :: u.data).reverse.dropWhile isPySpace = ('@' :: u.data).reverse :=
      dropWhile_all_false _ (fun c hc => hns2 c (List.mem_reverse.mp hc))
    unfold pyStripWs
    rw [hdata2, h1, h2, List.reverse_reverse, ← hdata]
  have conj3 : normalizeUsername (" @" ++ u) = "@" ++ u := by
    rw [normalizeUsername, key3, key4]
  have hat : ('@' :: u.data).all isHandleChar = false := by
    simp [List.all_cons, show isHandleChar '@' = false from by decide]
  have conj4 : validUsername ("@" ++ u) = false := by
    simp [validUsername, hdata, hat]
  exact ⟨conj1, by rw [conj1]; exact hv, conj3, by rw [conj3]; exact conj4⟩

/-- Witness for the amended C5 at the handle "nasa". -/
theorem C5_normalize_amended_witness :
    validUsername "nasa" = true ∧
    (normalizeUsername ("@" ++ "nasa") = "nasa" ∧
     validUsername (normalizeUsername ("@" ++ "nasa")) = true ∧
     normalizeUsername (" @" ++ "nasa") = "@" ++ "nasa" ∧
     validUsername (normalizeUsername (" @" ++ "nasa")) = false) :=
  ⟨by decide, C5_normalize_amended "nasa" (by decide)⟩

/-- C9 counterexample: the claim fails for an explicitly given empty
output argument, which Python `or` treats as absent: the code resolves
it to the default "nasa_videos.zip", not to "" with ".zip" appended. -/
theorem C9_output_counterexample :
    resolveOutput "nasa" (some "") = "nasa_videos.zip" ∧
    specResolveOutput "nasa" (some "") = ".zip" ∧
    resolveOutput "nasa" (some "") ≠ specResolveOutput "nasa" (some "") := by
  decide

/-- C9 amended: with no output argument the resolved path is
`<username>_videos.zip`; with a non-empty output argument, ".zip" is
appended iff the argument does not already end in ".zip"; an empty
output argument falls back to the default. -/
theorem C9_output_amended (u s : String) (hs : s ≠ "") :
    resolveOutput u none = u ++ "_videos.zip" ∧
    resolveOutput u (some s) = (if strEndsWith s ".zip" then s else s ++ ".zip") ∧
    resolveOutput u (some "") = resolveOutput u none := by
  have h1 : ("_videos".data : List Char) ++ ".zip".data = "_videos.zip".data := by
    decide
  have h2 : (".zip".data : List Char) <:+ (u ++ "_videos.zip").data := by
    rw [strData_append]
    exact ⟨u.data ++ "_videos".data, by rw [List.append_assoc, h1]⟩
  have hsuf : strEndsWith (u ++ "_videos.zip") ".zip" = true := by
    simpa [strEndsWith] using h2
  refine ⟨?_, ?_, ?_⟩
  · simp [resolveOutput, pyOrStr, hsuf]
  · simp [resolveOutput, pyOrStr, hs]
  · simp [resolveOutput, pyOrStr, hsuf]

/-- Witness for the amended C9 at username "nasa" and output "foo". -/
theorem C9_output_amended_witness :
    ("foo" ≠ "" ∧
     (resolveOutput "nasa" none = "nasa" ++ "_videos.zip" ∧
      resolveOutput "nasa" (some "foo") =
        (if strEndsWith "foo" ".zip" then "foo" else "foo" ++ ".zip") ∧
      resolveOutput "nasa" (some "") = resolveOutput "nasa" none)) ∧
    resolveOutput "nasa" (some "foo") = "foo.zip" ∧
    resolveOutput "nasa" (some "foo.zip") = "foo.zip" :=
  ⟨⟨by decide, C9_output_amended "nasa" "foo" (by decide)⟩, by decide, by decide⟩

/-- C10: a limit of 0 is treated as unbounded, exactly like an absent
limit: the option bundle is identical to that of an unlimited run and no
playlist_items restriction is passed to the adapter. -/
theorem C10_limit_zero (cookies : Option String) (ce : Bool) (q : String) :
    buildYdlOpts (some 0) cookies ce q = buildYdlOpts none cookies ce q ∧
    (buildYdlOpts (some 0) cookies ce q).1.playlist_items = none := by
  constructor
  · simp [buildYdlOpts]
  · rcases cookies with _ | c
    · simp [buildYdlOpts, strTruthy]
    · by_cases hc : c = ""
      · simp [buildYdlOpts, strTruthy, hc]
      · by_cases hce : ce <;>
          simp [buildYdlOpts, strTruthy, bne_iff_ne, hc, hce]

/-- C1: whenever the qualifying files are non-empty and the run reaches
Archive Assembly, the archive receives exactly the qualifying files (a
permutation), in lexicographic order of original filename, each under
the target name `<identifier>_<filename>`, and the call returns success. -/
theorem C1_archive_order (u z : String) (w : World)
    (hy : w.ytDlpInstalled = true) (hr : w.retrievalRaises = false)
    (ha : w.archiveRaises = false) (hne : qualifyingFiles w.listing ≠ []) :
    ∃ L : List String,
      List.Perm L (qualifyingFiles w.listing) ∧
      List.Sorted (fun a b => strLe a b = true) L ∧
      (downloadVideos u z w).entries = L.map (targetName u) ∧
      (downloadVideos u z w).outcome = .ret true := by
  have hem : (qualifyingFiles w.listing).isEmpty = false := by
    cases hq : qualifyingFiles w.listing
    · exact absurd hq hne
    · rfl
  haveI htot : IsTotal String (fun a b => strLe a b = true) :=
    ⟨fun a b => lexLe_total a.data b.data⟩
  haveI htrans : IsTrans String (fun a b => strLe a b = true) :=
    ⟨fun a b c hab hbc => lexLe_trans a.data b.data c.data hab hbc⟩
  refine ⟨sortFiles (qualifyingFiles w.listing),
    List.perm_insertionSort _ _, List.sorted_insertionSort _ _, ?_, ?_⟩ <;>
    simp [downloadVideos, hy, hr, ha, hem, archiveNames, sortFiles]

/-- Witness for C1 at the spec example: Working Area {b.mp4, a.webm,
c.mkv} and identifier nasa give entries nasa_a.webm, nasa_b.mp4,
nasa_c.mkv in that order. -/
theorem C1_archive_order_witness :
    (qualifyingFiles wDemo.listing ≠ [] ∧
     (downloadVideos "nasa" "nasa_videos.zip" wDemo).entries =
       ["nasa_a.webm", "nasa_b.mp4", "nasa_c.mkv"]) ∧
    (∃ L : List String,
      List.Perm L (qualifyingFiles wDemo.listing) ∧
      List.Sorted (fun a b => strLe a b = true) L ∧
      (downloadVideos "nasa" "nasa_videos.zip" wDemo).entries =
        L.map (targetName "nasa") ∧
      (downloadVideos "nasa" "nasa_videos.zip" wDemo).outcome = .ret true) :=
  ⟨⟨by decide, by decide⟩,
   C1_archive_order "nasa" "nasa_videos.zip" wDemo (by decide) (by decide)
     (by decide) (by decide)⟩

/-- C6: when Archive Assembly runs on a duplicate-free non-empty listing,
the qualifying files and the archive entries are in bijection: entries
are pairwise distinct, counts agree, every qualifying file contributes
its target name, and every entry comes from exactly one qualifying file. -/
theorem C6_bijection (u z : String) (w : World)
    (hy : w.ytDlpInstalled = true) (hr : w.retrievalRaises = false)
    (ha : w.archiveRaises = false)
    (hnd : (qualifyingFiles w.listing).Nodup)
    (hne : qualifyingFiles w.listing ≠ []) :
    (downloadVideos u z w).entries.Nodup ∧
    (downloadVideos u z w).entries.length = (qualifyingFiles w.listing).length ∧
    (∀ f ∈ qualifyingFiles w.listing,
      targetName u f ∈ (downloadVideos u z w).entries) ∧
    (∀ e ∈ (downloadVideos u z w).entries,
      ∃! f, f ∈ qualifyingFiles w.listing ∧ targetName u f = e) := by
  have hem : (qualifyingFiles w.listing).isEmpty = false := by
    cases hq : qualifyingFiles w.listing
    · exact absurd hq hne
    · rfl
  have hperm : List.Perm (sortFiles (qualifyingFiles w.listing))
      (qualifyingFiles w.listing) := List.perm_insertionSort _ _
  have hent : (downloadVideos u z w).entries =
      (sortFiles (qualifyingFiles w.listing)).map (targetName u) := by
    simp [downloadVideos, hy, hr, ha, hem, archiveNames]
  rw [hent]
  refine ⟨?_, ?_, ?_, ?_⟩
  · exact List.Nodup.map (fun f1 f2 h => targetName_inj u h)
      (hperm.nodup_iff.mpr hnd)
  · simp [List.length_map, hperm.length_eq]
  · intro f hf
    exact List.mem_map.mpr ⟨f, hperm.mem_iff.mpr hf, rfl⟩
  · intro e he
    obtain ⟨f0, hf0, rfl⟩ := List.mem_map.mp he
    exact ⟨f0, ⟨hperm.mem_iff.mp hf0, rfl⟩,
      fun f' hf' => targetName_inj u hf'.2⟩

/-- Witness for C6 at the three-file fixture. -/
theorem C6_bijection_witness :
    ((qualifyingFiles wDemo.listing).Nodup ∧ qualifyingFiles wDemo.listing ≠ []) ∧
    ((downloadVideos "nasa" "nasa_videos.zip" wDemo).entries.Nodup ∧
     (downloadVideos "nasa" "nasa_videos.zip" wDemo).entries.length =
       (qualifyingFiles wDemo.listing).length ∧
     (∀ f ∈ qualifyingFiles wDemo.listing,
       targetName "nasa" f ∈ (downloadVideos "nasa" "nasa_videos.zip" wDemo).entries) ∧
     (∀ e ∈ (downloadVideos "nasa" "nasa_videos.zip" wDemo).entries,
       ∃! f, f ∈ qualifyingFiles wDemo.listing ∧ targetName "nasa" f = e)) :=
  ⟨⟨by decide, by decide⟩,
   C6_bijection "nasa" "nasa_videos.zip" wDemo (by decide) (by decide)
     (by decide) (by decide) (by decide)⟩

/-- C7: in every run that created the Working Area, whatever the exit
path (success, empty result, retrieval exception, archiving exception),
the cleanup is the final effect; when the removal succeeds the Working
Area is gone; and a removal failure changes neither the outcome nor the
entries written. -/
theorem C7_cleanup (u z : String) (w : World) (hy : w.ytDlpInstalled = true) :
    (downloadVideos u z w).effects.getLast? = some Eff.removeWorkDir ∧
    (w.rmtreeFails = false → (downloadVideos u z w).tempDirExists = false) ∧
    (∀ b : Bool,
      (downloadVideos u z { w with rmtreeFails := b }).outcome =
        (downloadVideos u z w).outcome ∧
      (downloadVideos u z { w with rmtreeFails := b }).entries =
        (downloadVideos u z w).entries) := by
  refine ⟨?_, ?_, fun b => ⟨?_, ?_⟩⟩ <;>
  · by_cases hrr : w.retrievalRaises <;>
      by_cases hem : (qualifyingFiles w.listing).isEmpty <;>
      by_cases har : w.archiveRaises <;>
      simp [downloadVideos, hy, hrr, hem, har]

/-- Witness for C7 at the three-file fixture. -/
theorem C7_cleanup_witness :
    wDemo.ytDlpInstalled = true ∧
    ((downloadVideos "nasa" "nasa_videos.zip" wDemo).effects.getLast? =
       some Eff.removeWorkDir ∧
     (wDemo.rmtreeFails = false →
       (downloadVideos "nasa" "nasa_videos.zip" wDemo).tempDirExists = false) ∧
     (∀ b : Bool,
       (downloadVideos "nasa" "nasa_videos.zip" { wDemo with rmtreeFails := b }).outcome =
         (downloadVideos "nasa" "nasa_videos.zip" wDemo).outcome ∧
       (downloadVideos "nasa" "nasa_videos.zip" { wDemo with rmtreeFails := b }).entries =
         (downloadVideos "nasa" "nasa_videos.zip" wDemo).entries)) :=
  ⟨by decide, C7_cleanup "nasa" "nasa_videos.zip" wDemo (by decide)⟩

/-- C8: a cookies path that does not exist on disk does not abort the
run: the warning is printed, the adapter is still called, and with the
very options of a cookie-less run — in particular no cookiefile option. -/
theorem C8_cookies_missing (u z c : String) (w : World)
    (hy : w.ytDlpInstalled = true) (hc : w.cookiesArg = some c) (hcne : c ≠ "")
    (hex : w.cookiesFileExists = false) :
    (downloadVideos u z w).warnedCookies = true ∧
    (downloadVideos u z w).optsUsed =
      (downloadVideos u z { w with cookiesArg := none }).optsUsed ∧
    (downloadVideos u z w).optsUsed.map YdlOpts.cookiefile = some none ∧
    Eff.adapterDownload ∈ (downloadVideos u z w).effects := by
  have hb : buildYdlOpts w.limitArg w.cookiesArg w.cookiesFileExists w.quality =
      ((buildYdlOpts w.limitArg none w.cookiesFileExists w.quality).1, true) := by
    rw [hc, hex]
    simp [buildYdlOpts, strTruthy, bne_iff_ne, hcne]
  have hcf : (buildYdlOpts w.limitArg none w.cookiesFileExists w.quality).1.cookiefile
      = none := by
    rcases hlm : w.limitArg with _ | n
    · simp [buildYdlOpts, strTruthy]
    · by_cases hn : n = 0 <;> simp [buildYdlOpts, strTruthy, hn]
  refine ⟨?_, ?_, ?_, ?_⟩ <;>
  · by_cases hrr : w.retrievalRaises <;>
      by_cases hem : (qualifyingFiles w.listing).isEmpty <;>
      by_cases har : w.archiveRaises <;>
      simp [downloadVideos, hy, hrr, hem, har, hb, hcf]

/-- Witness for C8 at the missing-cookies fixture. -/
theorem C8_cookies_missing_witness :
    (wCookies.ytDlpInstalled = true ∧ wCookies.cookiesArg = some "cookies.txt" ∧
     "cookies.txt" ≠ "" ∧ wCookies.cookiesFileExists = false) ∧
    ((downloadVideos "nasa" "nasa_videos.zip" wCookies).warnedCookies = true ∧
     (downloadVideos "nasa" "nasa_videos.zip" wCookies).optsUsed =
       (downloadVideos "nasa" "nasa_videos.zip"
         { wCookies with cookiesArg := none }).optsUsed ∧
     (downloadVideos "nasa" "nasa_videos.zip" wCookies).optsUsed.map
       YdlOpts.cookiefile = some none ∧
     Eff.adapterDownload ∈ (downloadVideos "nasa" "nasa_videos.zip" wCookies).effects) :=
  ⟨⟨by decide, by decide, by decide, by decide⟩,
   C8_cookies_missing "nasa" "nasa_videos.zip" "cookies.txt" wCookies
     (by decide) (by decide) (by decide) (by decide)⟩

end XD
